import Mathlib

/-!
Verification of the guided face-enrollment and face-tracking core of the
vision-based attendance project (`camera.py`, `face_capture.py`).

The Python classes are shallowly embedded: mutable objects become explicit
state records, methods become state-transforming functions, Python floats
become exact rationals, and the face-localization / landmark / embedding
backend (`face_recognition`) is an input to each call (its per-frame output,
or an error, is part of the modelled frame).  `np.linalg.norm` is modelled
with an abstract square-root function `sq : ℚ → ℚ`; every theorem below is
uniform in `sq`, since the properties under verification only compare the
derived ratios against constant thresholds.  Python `int()` on a float is
truncation toward zero, modelled on `ℚ` by `pyTrunc`.
-/

/-- Truncation toward zero of a rational, as Python `int()` on a float. -/
def pyTrunc (q : ℚ) : ℤ :=
  q.num.tdiv q.den

/-- Mean of a list of rationals, as Python `sum(xs) / len(xs)` (true division). -/
def listMean (xs : List ℚ) : ℚ :=
  xs.sum / xs.length

/-! ## `camera.FaceDetector`: boxes and IoU -/

/-- An axis-aligned bounding box `(x, y, w, h)` in integer pixel coordinates,
as produced by `FaceDetector.detect`. -/
structure Box where
  x : ℤ
  y : ℤ
  w : ℤ
  h : ℤ
deriving DecidableEq

/-- `FaceDetector._calculate_iou`: intersection-over-union of two boxes.
Integer geometry, rational result (Python float division). -/
def calculate_iou (box1 box2 : Box) : ℚ :=
  let xi1 := max box1.x box2.x
  let yi1 := max box1.y box2.y
  let xi2 := min (box1.x + box1.w) (box2.x + box2.w)
  let yi2 := min (box1.y + box1.h) (box2.y + box2.h)
  if xi2 ≤ xi1 ∨ yi2 ≤ yi1 then 0
  else
    let intersection := (xi2 - xi1) * (yi2 - yi1)
    let area1 := box1.w * box1.h
    let area2 := box2.w * box2.h
    let union := area1 + area2 - intersection
    if 0 < union then (intersection : ℚ) / (union : ℚ) else 0

/-! ## `camera.FaceDetector._smooth_detections` -/

/-- The inner matching loop of `_smooth_detections`: starting from
`best_iou = 0.3, best_match = None`, scan `prev_faces` and keep the first
strict improvement.  The accumulator is `(best_iou, best_match)`. -/
def bestMatchStep (face : Box) (acc : ℚ × Option Box) (p : Box) : ℚ × Option Box :=
  let iou := calculate_iou face p
  if acc.1 < iou then (iou, some p) else acc

/-- The match (if any) that `_smooth_detections` selects in one earlier frame. -/
def bestMatchIn (face : Box) (prev_faces : List Box) : Option Box :=
  (prev_faces.foldl (bestMatchStep face) (3/10, none)).2

/-- `matched_positions`: the current box together with its best match from
each earlier frame of the window (`history[:-1]`), in window order. -/
def matchedPositions (face : Box) (earlier : List (List Box)) : List Box :=
  face :: earlier.filterMap (bestMatchIn face)

/-- Componentwise average of a list of boxes, with Python `int()` truncation:
`int(sum(f[k] for f in positions) / len(positions))`. -/
def avgBox (positions : List Box) : Box :=
  { x := pyTrunc (listMean (positions.map fun f => (f.x : ℚ)))
    y := pyTrunc (listMean (positions.map fun f => (f.y : ℚ)))
    w := pyTrunc (listMean (positions.map fun f => (f.w : ℚ)))
    h := pyTrunc (listMean (positions.map fun f => (f.h : ℚ))) }

/-- `FaceDetector._smooth_detections`.  `history` is the detection window,
latest frame last. -/
def smooth_detections (history : List (List Box)) : List Box :=
  match history.getLast? with
  | none => []
  | some current_faces =>
    if current_faces = [] then []
    else if history.length < 2 then current_faces
    else current_faces.map fun face => avgBox (matchedPositions face history.dropLast)

/-! ## `camera.FaceDetector` state and `detect` -/

/-- The mutable state of a `FaceDetector` instance. -/
structure FaceDetectorState where
  scale : ℚ
  skip_frames : ℕ
  smoothing_window : ℕ
  frame_count : ℕ
  cached_faces : List Box
  detection_history : List (List Box)
deriving DecidableEq

/-- `FaceDetector.__init__` (the `model` string plays no role in the model). -/
def FaceDetectorState.init (scale : ℚ) (skip_frames smoothing_window : ℕ) :
    FaceDetectorState :=
  { scale := scale
    skip_frames := skip_frames
    smoothing_window := smoothing_window
    frame_count := 0
    cached_faces := []
    detection_history := [] }

/-- A raw face location from the backend: `(top, right, bottom, left)`. -/
structure RawLoc where
  top : ℤ
  right : ℤ
  bottom : ℤ
  left : ℤ
deriving DecidableEq

/-- Conversion of one backend location to an `(x, y, w, h)` box scaled back to
the original frame: `int(left / scale)` etc. -/
def convertLoc (scale : ℚ) (loc : RawLoc) : Box :=
  { x := pyTrunc ((loc.left : ℚ) / scale)
    y := pyTrunc ((loc.top : ℚ) / scale)
    w := pyTrunc (((loc.right : ℚ) - (loc.left : ℚ)) / scale)
    h := pyTrunc (((loc.bottom : ℚ) - (loc.top : ℚ)) / scale) }

/-- `FaceDetector.detect`.  The frame itself is opaque; what the call can
observe of it is the backend's output on it, `backend : Except String (List RawLoc)`
(`face_recognition.face_locations` returning a list, or raising).  The result
pairs the post-call object state with the returned list — or the propagated
exception.  On a skipped frame the backend is never consulted. -/
def detect (s : FaceDetectorState) (backend : Except String (List RawLoc)) :
    FaceDetectorState × Except String (List Box) :=
  let s := { s with frame_count := s.frame_count + 1 }
  if s.frame_count % s.skip_frames ≠ 0 then
    (s, .ok s.cached_faces)
  else
    match backend with
    | .error e => (s, .error e)
    | .ok locs =>
      let faces := locs.map (convertLoc s.scale)
      let history := s.detection_history ++ [faces]
      let history := if s.smoothing_window < history.length then history.drop 1 else history
      let cached := if 2 ≤ history.length then smooth_detections history else faces
      ({ s with detection_history := history, cached_faces := cached }, .ok cached)

/-- Evaluation lemma: `pyTrunc` of an integer is itself. -/
theorem pyTrunc_intCast (n : ℤ) : pyTrunc (n : ℚ) = n := by
  simp [pyTrunc, Rat.num_intCast, Rat.den_intCast]

/-! ## Properties of `_calculate_iou` (claim C8) -/

theorem calculate_iou_comm (a b : Box) : calculate_iou a b = calculate_iou b a := by
  simp only [calculate_iou]
  rw [max_comm a.x b.x, max_comm a.y b.y, min_comm (a.x + a.w) (b.x + b.w),
    min_comm (a.y + a.h) (b.y + b.h), add_comm (a.w * a.h) (b.w * b.h)]

theorem calculate_iou_self (a : Box) (hw : 0 < a.w) (hh : 0 < a.h) :
    calculate_iou a a = 1 := by
  simp only [calculate_iou, max_self, min_self]
  rw [if_neg, if_pos]
  · rw [show a.x + a.w - a.x = a.w by ring, show a.y + a.h - a.y = a.h by ring]
    rw [show a.w * a.h + a.w * a.h - a.w * a.h = a.w * a.h by ring]
    rw [div_self]
    have : (0 : ℚ) < ((a.w * a.h : ℤ) : ℚ) := by exact_mod_cast mul_pos hw hh
    exact ne_of_gt this
  · rw [show a.x + a.w - a.x = a.w by ring, show a.y + a.h - a.y = a.h by ring]
    nlinarith
  · push_neg
    constructor <;> omega

theorem calculate_iou_disjoint (a b : Box)
    (h : min (a.x + a.w) (b.x + b.w) ≤ max a.x b.x ∨
         min (a.y + a.h) (b.y + b.h) ≤ max a.y b.y) :
    calculate_iou a b = 0 := by
  simp only [calculate_iou]
  rw [if_pos h]

theorem calculate_iou_mem_unit (a b : Box) :
    0 ≤ calculate_iou a b ∧ calculate_iou a b ≤ 1 := by
  simp only [calculate_iou]
  split
  · exact ⟨le_refl 0, by norm_num⟩
  · rename_i hno
    push_neg at hno
    obtain ⟨hx, hy⟩ := hno
    set xi1 := max a.x b.x with hxi1
    set yi1 := max a.y b.y with hyi1
    set xi2 := min (a.x + a.w) (b.x + b.w) with hxi2
    set yi2 := min (a.y + a.h) (b.y + b.h) with hyi2
    have hxw : 0 < xi2 - xi1 := by omega
    have hyw : 0 < yi2 - yi1 := by omega
    have hxa : xi2 - xi1 ≤ a.w := by
      have h1 : xi2 ≤ a.x + a.w := min_le_left _ _
      have h2 : a.x ≤ xi1 := le_max_left _ _
      omega
    have hxb : xi2 - xi1 ≤ b.w := by
      have h1 : xi2 ≤ b.x + b.w := min_le_right _ _
      have h2 : b.x ≤ xi1 := le_max_right _ _
      omega
    have hya : yi2 - yi1 ≤ a.h := by
      have h1 : yi2 ≤ a.y + a.h := min_le_left _ _
      have h2 : a.y ≤ yi1 := le_max_left _ _
      omega
    have hyb : yi2 - yi1 ≤ b.h := by
      have h1 : yi2 ≤ b.y + b.h := min_le_right _ _
      have h2 : b.y ≤ yi1 := le_max_right _ _
      omega
    have hIa : (xi2 - xi1) * (yi2 - yi1) ≤ a.w * a.h := by nlinarith
    have hIb : (xi2 - xi1) * (yi2 - yi1) ≤ b.w * b.h := by nlinarith
    have hIpos : 0 < (xi2 - xi1) * (yi2 - yi1) := mul_pos hxw hyw
    split
    · rename_i hU
      have hle : (xi2 - xi1) * (yi2 - yi1) ≤ a.w * a.h + b.w * b.h - (xi2 - xi1) * (yi2 - yi1) := by
        omega
      constructor
      · apply div_nonneg
        · exact_mod_cast le_of_lt hIpos
        · exact_mod_cast le_of_lt hU
      · rw [div_le_one (by exact_mod_cast hU)]
        exact_mod_cast hle
    · exact ⟨le_refl 0, by norm_num⟩

/-- C8, counterexample: the IoU of a degenerate box with itself is `0`, not
`1` — the code returns `0.0` whenever the intersection extents are
non-positive, identical boxes included. -/
theorem C8_counterexample :
    calculate_iou ⟨0, 0, 0, 0⟩ ⟨0, 0, 0, 0⟩ = 0 ∧ (0 : ℚ) ≠ 1 := by
  constructor
  · norm_num [calculate_iou]
  · norm_num

/-- C8 (amended): `_calculate_iou` is symmetric, equals `1` for identical
boxes of positive width and height, equals `0` for disjoint boxes
(non-positive intersection width or height), and always lies in `[0, 1]`. -/
theorem C8_iou_properties :
    (∀ a b : Box, calculate_iou a b = calculate_iou b a) ∧
    (∀ a : Box, 0 < a.w → 0 < a.h → calculate_iou a a = 1) ∧
    (∀ a b : Box,
      (min (a.x + a.w) (b.x + b.w) ≤ max a.x b.x ∨
       min (a.y + a.h) (b.y + b.h) ≤ max a.y b.y) → calculate_iou a b = 0) ∧
    (∀ a b : Box, 0 ≤ calculate_iou a b ∧ calculate_iou a b ≤ 1) :=
  ⟨calculate_iou_comm, calculate_iou_self, calculate_iou_disjoint, calculate_iou_mem_unit⟩

/-- C8, witness: the amended properties evaluated at concrete boxes. -/
theorem C8_witness :
    calculate_iou ⟨0, 0, 5, 5⟩ ⟨0, 0, 5, 5⟩ = 1 ∧
    calculate_iou ⟨0, 0, 2, 2⟩ ⟨10, 10, 2, 2⟩ = 0 :=
  ⟨C8_iou_properties.2.1 ⟨0, 0, 5, 5⟩ (by norm_num) (by norm_num),
   C8_iou_properties.2.2.1 ⟨0, 0, 2, 2⟩ ⟨10, 10, 2, 2⟩ (by norm_num)⟩

/-! ## `detect` on skipped frames (claims C6, C9) -/

/-- Shared lemma: on a skipped frame (`frame_count + 1` not a multiple of
`skip_frames`), `detect` increments the counter, returns the cached list, and
is independent of the backend. -/
theorem detect_skip_eq (s : FaceDetectorState) (backend : Except String (List RawLoc))
    (h : (s.frame_count + 1) % s.skip_frames ≠ 0) :
    detect s backend = ({ s with frame_count := s.frame_count + 1 }, .ok s.cached_faces) := by
  simp [detect, h]

/-- C6: for every `detect` call whose incremented frame counter is not a
multiple of `skip_frames` (with a positive `skip_frames`, as in Python where
`% 0` raises), the call returns the previously cached detection list
unchanged, leaves the detection history and cache unmodified, and performs no
face localization — the result is the same for every backend outcome,
including a backend error. -/
theorem C6_detect_skipped_frame (s : FaceDetectorState)
    (backend : Except String (List RawLoc)) (_hskip : 0 < s.skip_frames)
    (h : (s.frame_count + 1) % s.skip_frames ≠ 0) :
    detect s backend = ({ s with frame_count := s.frame_count + 1 }, .ok s.cached_faces) :=
  detect_skip_eq s backend h

/-- C6, witness: a concrete skipped call with an erroring backend still
returns the cached list. -/
theorem C6_witness :
    detect ⟨1, 2, 3, 2, [⟨5, 6, 7, 8⟩], [[⟨5, 6, 7, 8⟩]]⟩ (.error "down") =
      (⟨1, 2, 3, 3, [⟨5, 6, 7, 8⟩], [[⟨5, 6, 7, 8⟩]]⟩, .ok [⟨5, 6, 7, 8⟩]) :=
  C6_detect_skipped_frame ⟨1, 2, 3, 2, [⟨5, 6, 7, 8⟩], [[⟨5, 6, 7, 8⟩]]⟩ (.error "down")
    (by norm_num) (by norm_num)

/-- C9: on a freshly constructed detector with `skip_frames ≥ 2`, the first
`detect` call is a skipped frame (the counter becomes 1, not a multiple of
`skip_frames`), so no localization happens — the result is the empty cached
list, for every backend outcome. -/
theorem C9_first_call_returns_empty (scale : ℚ) (skip window : ℕ)
    (backend : Except String (List RawLoc)) (h : 2 ≤ skip) :
    detect (FaceDetectorState.init scale skip window) backend =
      ({ FaceDetectorState.init scale skip window with frame_count := 1 }, .ok []) := by
  apply detect_skip_eq
  simp only [FaceDetectorState.init]
  rw [Nat.zero_add, Nat.mod_eq_of_lt (by omega)]
  omega

/-- C9, witness: the default configuration (`scale = 0.5`, `skip_frames = 2`,
`smoothing_window = 3`) with a backend that would report a face. -/
theorem C9_witness :
    detect (FaceDetectorState.init (1/2) 2 3) (.ok [⟨10, 60, 70, 20⟩]) =
      ({ FaceDetectorState.init (1/2) 2 3 with frame_count := 1 }, .ok []) :=
  C9_first_call_returns_empty (1/2) 2 3 (.ok [⟨10, 60, 70, 20⟩]) (by norm_num)

/-! ## `detect` on backend errors (claim C3) -/

/-- C3, counterexample: on a processed frame whose localization backend
raises, `detect` propagates the error to the caller instead of returning the
cached list — there is no exception handler in `FaceDetector.detect`. -/
theorem C3_counterexample :
    (detect ⟨1/2, 2, 3, 1, [⟨0, 0, 10, 10⟩], [[⟨0, 0, 10, 10⟩]]⟩
        (.error "face_recognition error")).2 = .error "face_recognition error" := by
  simp [detect]

/-- C3 (amended): when the localization backend throws on a processed
(non-skipped) frame, `detect` propagates the exception; the frame counter has
already been incremented, and the cached list and detection history keep
their previous values (the mutation stops where the exception is raised). -/
theorem C3_detect_error_propagates (s : FaceDetectorState) (e : String)
    (_hskip : 0 < s.skip_frames) (hproc : (s.frame_count + 1) % s.skip_frames = 0) :
    detect s (.error e) = ({ s with frame_count := s.frame_count + 1 }, .error e) := by
  simp [detect, hproc]

/-- C3, witness: a concrete processed frame with an erroring backend. -/
theorem C3_witness :
    detect ⟨1/2, 2, 3, 1, [⟨0, 0, 4, 4⟩], [[⟨0, 0, 4, 4⟩]]⟩ (.error "hog crashed") =
      (⟨1/2, 2, 3, 2, [⟨0, 0, 4, 4⟩], [[⟨0, 0, 4, 4⟩]]⟩, .error "hog crashed") :=
  C3_detect_error_propagates ⟨1/2, 2, 3, 1, [⟨0, 0, 4, 4⟩], [[⟨0, 0, 4, 4⟩]]⟩ "hog crashed"
    (by norm_num) (by norm_num)

/-! ## `detect` on an empty current frame (claim C10) -/

/-- If the latest frame of the window has no detections, smoothing yields the
empty list. -/
theorem smooth_detections_last_nil (h : List (List Box)) (hl : h.getLast? = some []) :
    smooth_detections h = [] := by
  unfold smooth_detections
  rw [hl]
  simp

/-- C10: on a processed frame where localization returns zero boxes, `detect`
returns the empty list and caches it, even if the history window still holds
earlier frames with boxes — smoothing never carries an old box into an empty
current frame. -/
theorem C10_empty_frame_returns_empty (s : FaceDetectorState)
    (_hskip : 0 < s.skip_frames) (hproc : (s.frame_count + 1) % s.skip_frames = 0) :
    (detect s (.ok [])).2 = .ok [] ∧ (detect s (.ok [])).1.cached_faces = [] := by
  have hcached :
      ∀ h2 : List (List Box), h2.getLast? = some [] ∨ h2 = [] →
        (if 2 ≤ h2.length then smooth_detections h2 else ([] : List Box)) = [] := by
    intro h2 hlast
    rcases hlast with hlast | rfl
    · split
      · exact smooth_detections_last_nil h2 hlast
      · rfl
    · simp
  have hform :
      ∀ h1 : List (List Box), h1.getLast? = some [] →
        (if s.smoothing_window < h1.length then h1.drop 1 else h1).getLast? = some [] ∨
        (if s.smoothing_window < h1.length then h1.drop 1 else h1) = [] := by
    intro h1 hlast
    split
    · match h1, hlast with
      | [a], _ => right; rfl
      | a :: b :: t, hl =>
        left
        rw [List.drop_one, List.tail_cons]
        rwa [List.getLast?_cons_cons] at hl
    · exact Or.inl hlast
  simp only [detect, hproc, ne_eq, not_true_eq_false, if_false, List.map_nil]
  refine ⟨?_, ?_⟩ <;>
  · dsimp only
    rw [hcached _ (hform (s.detection_history ++ [[]]) (by simp))]

/-- C10, witness: a processed empty frame with one face still in history. -/
theorem C10_witness :
    ((detect ⟨1/2, 2, 3, 1, [⟨0, 0, 10, 10⟩], [[⟨0, 0, 10, 10⟩]]⟩ (.ok [])).2 = .ok [] ∧
      (detect ⟨1/2, 2, 3, 1, [⟨0, 0, 10, 10⟩], [[⟨0, 0, 10, 10⟩]]⟩
        (.ok [])).1.cached_faces = []) :=
  C10_empty_frame_returns_empty ⟨1/2, 2, 3, 1, [⟨0, 0, 10, 10⟩], [[⟨0, 0, 10, 10⟩]]⟩
    (by norm_num) (by norm_num)

/-! ## The smoothing algorithm as specified (claim C7) -/

/-- Specification-side best match: among the boxes of one earlier frame, the
box with highest IoU against `face`, kept only when that IoU is strictly
above the 0.3 threshold (first such box on ties). -/
def specBestMatch (face : Box) (prev_faces : List Box) : Option Box :=
  (prev_faces.filter fun p => 3/10 < calculate_iou face p).argmax (calculate_iou face)

/-- Specification-side smoothing, following the spec text: fewer than two
frames of history return the current frame's raw detections unchanged;
otherwise each current box is averaged together with its best match from
each earlier frame (at most one per earlier frame). -/
def smoothSpec (history : List (List Box)) : List Box :=
  match history.getLast? with
  | none => []
  | some current_faces =>
    if history.length < 2 then current_faces
    else current_faces.map fun face =>
      avgBox (face :: history.dropLast.filterMap (specBestMatch face))

/-- Once a candidate is held, the threshold scan is exactly the first-on-ties
argmax scan. -/
theorem foldl_bestMatchStep_some (face : Box) (l : List Box) (b : Box) :
    (l.foldl (bestMatchStep face) (calculate_iou face b, some b)).2 =
      l.foldl (List.argAux fun p q => calculate_iou face q < calculate_iou face p) (some b) := by
  induction l generalizing b with
  | nil => rfl
  | cons p l ih =>
    simp only [List.foldl_cons, bestMatchStep, List.argAux]
    by_cases h : calculate_iou face b < calculate_iou face p
    · rw [if_pos h, if_pos h]
      exact ih p
    · rw [if_neg h, if_neg h]
      exact ih b

/-- Elements at or below a bound already beaten by the held candidate do not
affect the argmax scan, so they may be filtered away. -/
theorem foldl_argAux_filter (face : Box) (l : List Box) (b : Box) (t : ℚ)
    (hb : t < calculate_iou face b) :
    ((l.filter fun p => t < calculate_iou face p).foldl
        (List.argAux fun p q => calculate_iou face q < calculate_iou face p) (some b)) =
      l.foldl (List.argAux fun p q => calculate_iou face q < calculate_iou face p) (some b) := by
  induction l generalizing b with
  | nil => rfl
  | cons q l ih =>
    by_cases hq : t < calculate_iou face q
    · rw [List.filter_cons_of_pos (by simpa using hq)]
      simp only [List.foldl_cons, List.argAux]
      by_cases hlt : calculate_iou face b < calculate_iou face q
      · rw [if_pos hlt]
        exact ih q hq
      · rw [if_neg hlt]
        exact ih b hb
    · rw [List.filter_cons_of_neg (by simpa using hq)]
      simp only [List.foldl_cons, List.argAux]
      have hlt : ¬ calculate_iou face b < calculate_iou face q := by
        push_neg at hq ⊢
        exact hq.trans (le_of_lt hb)
      rw [if_neg hlt]
      exact ih b hb

/-- The code's threshold scan selects exactly the specification's best match. -/
theorem bestMatchIn_eq_specBestMatch (face : Box) (l : List Box) :
    bestMatchIn face l = specBestMatch face l := by
  unfold bestMatchIn specBestMatch List.argmax
  induction l with
  | nil => rfl
  | cons p l ih =>
    by_cases hp : 3/10 < calculate_iou face p
    · rw [List.filter_cons_of_pos (by simpa using hp)]
      simp only [List.foldl_cons, bestMatchStep, List.argAux]
      rw [if_pos hp]
      exact (foldl_bestMatchStep_some face l p).trans
        (foldl_argAux_filter face l p (3/10) hp).symm
    · rw [List.filter_cons_of_neg (by simpa using hp)]
      simp only [List.foldl_cons, bestMatchStep]
      rw [if_neg hp]
      exact ih

/-- Averaging a single box returns that box. -/
theorem avgBox_singleton (face : Box) : avgBox [face] = face := by
  simp [avgBox, listMean, pyTrunc_intCast]

/-- C7, counterexample: with current box `(0,0,10,11)` matched against the
earlier box `(0,0,10,10)` (IoU `10/11 > 0.3`), the emitted height is the
Python-`int`-truncated `10`, while the unweighted mean of the heights is
`21/2` — the smoothed box is not the exact componentwise mean. -/
theorem C7_counterexample :
    smooth_detections [[⟨0, 0, 10, 10⟩], [⟨0, 0, 10, 11⟩]] = [⟨0, 0, 10, 10⟩] ∧
    listMean [((11 : ℤ) : ℚ), ((10 : ℤ) : ℚ)] = 21/2 ∧ ((21 : ℚ)/2 ≠ ((10 : ℤ) : ℚ)) := by
  refine ⟨?_, by norm_num [listMean], by norm_num⟩
  have hiou : calculate_iou ⟨0, 0, 10, 11⟩ ⟨0, 0, 10, 10⟩ = 10/11 := by
    norm_num [calculate_iou]
  have htr : pyTrunc (21/2) = 10 := by
    have hnum : ((21 : ℚ)/2).num = 21 := by norm_num
    have hden : ((21 : ℚ)/2).den = 2 := by norm_num
    simp only [pyTrunc, hnum, hden]
    decide
  have h0 : pyTrunc 0 = 0 := by simpa using pyTrunc_intCast 0
  have h10 : pyTrunc 10 = 10 := by simpa using pyTrunc_intCast 10
  have hbm : bestMatchIn ⟨0, 0, 10, 11⟩ [⟨0, 0, 10, 10⟩] = some ⟨0, 0, 10, 10⟩ := by
    simp only [bestMatchIn, List.foldl, bestMatchStep, hiou]
    norm_num
  simp only [smooth_detections, List.getLast?_cons_cons, List.getLast?_singleton,
    List.length_cons, List.length_nil, List.dropLast, matchedPositions, List.filterMap,
    hbm, List.map_cons, List.map_nil]
  norm_num [avgBox, listMean, h0, h10, htr]

/-- C7 (amended): `_smooth_detections` computes exactly the specified
algorithm — raw detections returned unchanged when the window has fewer than
two frames; otherwise each current box is averaged (componentwise, with
Python `int()` truncation of the unweighted mean) together with its single
best IoU-above-0.3 match from each earlier frame — and a box with no match in
any earlier frame is emitted as itself (the average of the singleton). -/
theorem C7_smoothing_matches_spec :
    (∀ history : List (List Box), smooth_detections history = smoothSpec history) ∧
    (∀ face : Box, avgBox [face] = face) := by
  refine ⟨?_, avgBox_singleton⟩
  intro history
  unfold smooth_detections smoothSpec
  match history.getLast? with
  | none => rfl
  | some current_faces =>
    dsimp only
    by_cases hcur : current_faces = []
    · subst hcur
      rw [if_pos rfl]
      split
      · rfl
      · simp
    · rw [if_neg hcur]
      split
      · rfl
      · refine List.map_congr_left fun face _ => ?_
        unfold matchedPositions
        rw [show bestMatchIn face = specBestMatch face from
          funext fun l => bestMatchIn_eq_specBestMatch face l]

/-! ## `face_capture.GuidedFaceCapture`: data model -/

/-- One pose stage with its mutable per-stage counter. -/
structure Stage where
  name : String
  instruction : String
  frames_captured : ℕ
deriving DecidableEq

/-- The static stage template `GuidedFaceCapture.STAGES` (name, instruction). -/
def STAGES : List (String × String) :=
  [("center", "Look straight at the camera"),
   ("left", "Turn your head slightly to the left"),
   ("right", "Turn your head slightly to the right"),
   ("up", "Tilt your chin up slightly"),
   ("down", "Look slightly downward"),
   ("smile", "Give a natural smile"),
   ("neutral", "Relax your face")]

/-- The mutable state of a `GuidedFaceCapture` instance.  `completed` models
`_completed`; an embedding vector is a list of rationals. -/
structure GuidedFaceCapture where
  frames_per_pose : ℕ
  current_stage_index : ℕ
  encodings : List (List ℚ)
  completed : Bool
  stages : List Stage
deriving DecidableEq

/-- `GuidedFaceCapture.__init__`. -/
def GuidedFaceCapture.init (frames_per_pose : ℕ) : GuidedFaceCapture :=
  { frames_per_pose := frames_per_pose
    current_stage_index := 0
    encodings := []
    completed := false
    stages := STAGES.map fun st => ⟨st.1, st.2, 0⟩ }

def defaultStage : Stage := ⟨"", "", 0⟩

/-- The index of the stage dict that `get_current_stage` aliases:
`current_stage_index` while in range, else the last index (`stages[-1]`). -/
def effective_stage_index (s : GuidedFaceCapture) : ℕ :=
  if s.current_stage_index < s.stages.length then s.current_stage_index
  else s.stages.length - 1

/-- `get_current_stage` (total model of the Python list indexing; `stages` is
never empty in any constructed state). -/
def get_current_stage (s : GuidedFaceCapture) : Stage :=
  s.stages.getD (effective_stage_index s) defaultStage

/-! ## Quality gates -/

def MIN_BRIGHTNESS : ℚ := 40
def MAX_BRIGHTNESS : ℚ := 220
/-- `MIN_FACE_RATIO = 0.15` in the source. -/
def MIN_FACE_FRAC : ℚ := 15/100
def BLUR_THRESHOLD : ℚ := 5

/-- A face landmark set as returned by `face_recognition.face_landmarks`:
named groups of 2-D points (rational coordinates). -/
structure Landmarks where
  chin : List (ℚ × ℚ)
  nose_bridge : List (ℚ × ℚ)
  nose_tip : List (ℚ × ℚ)
  left_eye : List (ℚ × ℚ)
  right_eye : List (ℚ × ℚ)
  top_lip : List (ℚ × ℚ)
  bottom_lip : List (ℚ × ℚ)
deriving DecidableEq

/-- The per-frame data the capture call can observe: frame dimensions, the
two scalar statistics the quality gates compute from the pixels, and the
outputs of the three backend calls on this frame. -/
structure Frame where
  width : ℕ
  height : ℕ
  brightness : ℚ
  blur_variance : ℚ
  faces : List RawLoc
  landmarks_list : List Landmarks
  face_encodings : List (List ℚ)
deriving DecidableEq

structure LightingResult where
  is_adequate : Bool
  message : String
deriving DecidableEq

/-- `analyze_lighting`. -/
def analyze_lighting (f : Frame) : LightingResult :=
  if f.brightness < MIN_BRIGHTNESS then
    ⟨false, "Too dark - please improve lighting"⟩
  else if MAX_BRIGHTNESS < f.brightness then
    ⟨false, "Too bright - reduce lighting or move away from window"⟩
  else
    ⟨true, "Lighting is good"⟩

structure PositionResult where
  is_valid : Bool
  message : String
deriving DecidableEq

/-- `validate_face_position`. -/
def validate_face_position (face_box : Box) (frame_width frame_height : ℕ) :
    PositionResult :=
  let face_center_x : ℚ := (face_box.x : ℚ) + (face_box.w : ℚ) / 2
  let face_center_y : ℚ := (face_box.y : ℚ) + (face_box.h : ℚ) / 2
  let face_frac : ℚ := (face_box.w : ℚ) / (frame_width : ℚ)
  if face_frac < MIN_FACE_FRAC then ⟨false, "Move closer to the camera"⟩
  else if face_center_x < (frame_width : ℚ) * (2/10) then ⟨false, "Move to the right"⟩
  else if (frame_width : ℚ) * (8/10) < face_center_x then ⟨false, "Move to the left"⟩
  else if face_center_y < (frame_height : ℚ) * (2/10) then ⟨false, "Move down"⟩
  else if (frame_height : ℚ) * (8/10) < face_center_y then ⟨false, "Move up"⟩
  else ⟨true, "Position is good"⟩

structure BlurResult where
  is_sharp : Bool
  message : String
deriving DecidableEq

/-- `check_blur` (the Laplacian variance is carried on the frame). -/
def check_blur (f : Frame) : BlurResult :=
  ⟨decide (BLUR_THRESHOLD ≤ f.blur_variance),
   if BLUR_THRESHOLD ≤ f.blur_variance then "Image is sharp"
   else "Image is blurry - hold still"⟩

/-! ## Pose validator (`validate_pose`) -/

/-- `np.mean(points, axis=0)`: componentwise mean of a point list. -/
def meanPt (pts : List (ℚ × ℚ)) : ℚ × ℚ :=
  ((pts.map Prod.fst).sum / pts.length, (pts.map Prod.snd).sum / pts.length)

/-- `np.linalg.norm` of a 2-D vector, via the abstract square root `sq`. -/
def norm2 (sq : ℚ → ℚ) (v : ℚ × ℚ) : ℚ :=
  sq (v.1 * v.1 + v.2 * v.2)

def left_eye_center (lm : Landmarks) : ℚ × ℚ := meanPt lm.left_eye

def right_eye_center (lm : Landmarks) : ℚ × ℚ := meanPt lm.right_eye

/-- `face_center_x = (left_eye_center[0] + right_eye_center[0]) / 2`. -/
def face_center_x (lm : Landmarks) : ℚ :=
  ((left_eye_center lm).1 + (right_eye_center lm).1) / 2

def nose_x (lm : Landmarks) : ℚ := (meanPt lm.nose_tip).1

def nose_y (lm : Landmarks) : ℚ := (meanPt lm.nose_tip).2

/-- `eye_dist = np.linalg.norm(right_eye_center - left_eye_center)`. -/
def eye_dist (sq : ℚ → ℚ) (lm : Landmarks) : ℚ :=
  norm2 sq ((right_eye_center lm).1 - (left_eye_center lm).1,
            (right_eye_center lm).2 - (left_eye_center lm).2)

/-- `yaw_ratio = (nose_x - face_center_x) / eye_dist` in the source. -/
def yawRatioOf (sq : ℚ → ℚ) (lm : Landmarks) : ℚ :=
  (nose_x lm - face_center_x lm) / eye_dist sq lm

def chin_y (lm : Landmarks) : ℚ := (meanPt lm.chin).2

def eye_y (lm : Landmarks) : ℚ :=
  ((left_eye_center lm).2 + (right_eye_center lm).2) / 2

def face_height (lm : Landmarks) : ℚ := chin_y lm - eye_y lm

/-- `pitch_ratio = (nose_y - eye_y) / face_height` in the source. -/
def pitchRatioOf (lm : Landmarks) : ℚ :=
  (nose_y lm - eye_y lm) / face_height lm

/-- `mouth_width = np.linalg.norm(top_lip[6] - top_lip[0])` (components). -/
def mouth_width (sq : ℚ → ℚ) (lm : Landmarks) : ℚ :=
  let mouth_left := lm.top_lip.getD 0 (0, 0)
  let mouth_right := lm.top_lip.getD 6 (0, 0)
  norm2 sq (mouth_right.1 - mouth_left.1, mouth_right.2 - mouth_left.2)

/-- `jaw_width = np.linalg.norm(chin[16] - chin[0])`. -/
def jaw_width (sq : ℚ → ℚ) (lm : Landmarks) : ℚ :=
  let c0 := lm.chin.getD 0 (0, 0)
  let c16 := lm.chin.getD 16 (0, 0)
  norm2 sq (c16.1 - c0.1, c16.2 - c0.2)

/-- `smile_ratio = mouth_width / jaw_width` in the source. -/
def smileRatioOf (sq : ℚ → ℚ) (lm : Landmarks) : ℚ :=
  mouth_width sq lm / jaw_width sq lm

structure PoseResult where
  is_valid : Bool
  message : String
deriving DecidableEq

/-- `validate_pose`: per-stage threshold decision on the derived ratios.
`YAW_THRESHOLD = 0.20`, `PITCH_UP_THRESHOLD = 0.45`,
`PITCH_DOWN_THRESHOLD = 0.50`. -/
def validate_pose (sq : ℚ → ℚ) (lm : Landmarks) (stage_name : String) : PoseResult :=
  if stage_name = "center" ∨ stage_name = "neutral" then
    if 20/100 < |yawRatioOf sq lm| then
      if 0 < yawRatioOf sq lm then ⟨false, "Face straight ahead (looking left)"⟩
      else ⟨false, "Face straight ahead (looking right)"⟩
    else ⟨true, "Good center pose"⟩
  else if stage_name = "left" then
    if -(3/100) < yawRatioOf sq lm then ⟨false, "Turn head slightly left"⟩
    else ⟨true, "Good left pose"⟩
  else if stage_name = "right" then
    if yawRatioOf sq lm < 3/100 then ⟨false, "Turn head slightly right"⟩
    else ⟨true, "Good right pose"⟩
  else if stage_name = "up" then
    if 45/100 < pitchRatioOf lm then ⟨false, "Tilt chin up slightly"⟩
    else ⟨true, "Good up pose"⟩
  else if stage_name = "down" then
    if pitchRatioOf lm < 50/100 then ⟨false, "Look down slightly"⟩
    else ⟨true, "Good down pose"⟩
  else if stage_name = "smile" then
    if smileRatioOf sq lm < 38/100 then ⟨false, "Please smile!"⟩
    else ⟨true, "Nice smile!"⟩
  else ⟨true, "Pose valid"⟩

/-! ## Capture state machine operations -/

/-- `is_complete`: returns the flag and (as a Python method on a mutable
object) may set `_completed` when every stage has reached the target. -/
def is_complete (s : GuidedFaceCapture) : GuidedFaceCapture × Bool :=
  if s.completed then (s, true)
  else if s.stages.all fun st => decide (s.frames_per_pose ≤ st.frames_captured) then
    ({ s with completed := true }, true)
  else (s, false)

/-- `advance_stage`. -/
def advance_stage (s : GuidedFaceCapture) : GuidedFaceCapture :=
  if s.current_stage_index < s.stages.length - 1 then
    { s with current_stage_index := s.current_stage_index + 1 }
  else
    { s with completed := true }

/-- `add_encoding`. -/
def add_encoding (s : GuidedFaceCapture) (enc : List ℚ) : GuidedFaceCapture :=
  { s with encodings := s.encodings ++ [enc] }

/-- `current_stage['frames_captured'] += 1` through the alias returned by
`get_current_stage`. -/
def bump_current_stage (s : GuidedFaceCapture) : GuidedFaceCapture :=
  { s with stages :=
      s.stages.modify (fun st => { st with frames_captured := st.frames_captured + 1 })
                      (effective_stage_index s) }

/-- `reset`. -/
def reset (s : GuidedFaceCapture) : GuidedFaceCapture :=
  { s with current_stage_index := 0
           encodings := []
           completed := false
           stages := s.stages.map fun st => { st with frames_captured := 0 } }

/-- Sum of all per-stage counters (the numerator of the progress string). -/
def totalCaptured (s : GuidedFaceCapture) : ℕ :=
  (s.stages.map Stage.frames_captured).sum

/-- `len(stages) * frames_per_pose` (the denominator of the progress string). -/
def totalNeeded (s : GuidedFaceCapture) : ℕ :=
  s.stages.length * s.frames_per_pose

/-- The status record `process_frame` returns (the annotated frame copy is
pure UI drawing and is not modelled; the progress string is modelled as its
two numbers). -/
structure CaptureStatus where
  stage : String
  stage_index : ℕ
  instruction : String
  progress_captured : ℕ
  progress_needed : ℕ
  is_complete : Bool
  face_detected : Bool
  feedback : String
  quality_ok : Bool
deriving DecidableEq

/-- `process_frame`.  Mirrors the source's control flow, including the two
mutating `is_complete()` calls made while building the status record. -/
def process_frame (sq : ℚ → ℚ) (s0 : GuidedFaceCapture) (f : Frame) :
    GuidedFaceCapture × CaptureStatus :=
  let ic := is_complete s0
  let s := ic.1
  let status : CaptureStatus :=
    { stage := (get_current_stage s).name
      stage_index := s.current_stage_index
      instruction := (get_current_stage s).instruction
      progress_captured := totalCaptured s
      progress_needed := totalNeeded s
      is_complete := ic.2
      face_detected := false
      feedback := ""
      quality_ok := false }
  if s.completed then (s, { status with feedback := "Capture complete!" })
  else
    let lighting := analyze_lighting f
    if lighting.is_adequate = false then
      (s, { status with feedback := lighting.message })
    else if f.faces.length = 0 then
      (s, { status with feedback := "No face detected - please face the camera" })
    else if 1 < f.faces.length then
      (s, { status with feedback := "Multiple faces detected - only one person please",
                        face_detected := true })
    else
      let loc := f.faces.getD 0 ⟨0, 0, 0, 0⟩
      let face_box : Box := ⟨loc.left, loc.top, loc.right - loc.left, loc.bottom - loc.top⟩
      let status := { status with face_detected := true }
      let position := validate_face_position face_box f.width f.height
      if position.is_valid = false then
        (s, { status with feedback := position.message })
      else
        let blur := check_blur f
        if blur.is_sharp = false then
          (s, { status with feedback := blur.message })
        else
          let poseFail : Option String :=
            match f.landmarks_list with
            | [] => none
            | lm :: _ =>
              let pose_check := validate_pose sq lm status.stage
              if pose_check.is_valid = false then some pose_check.message else none
          match poseFail with
          | some msg => (s, { status with feedback := msg })
          | none =>
            let status := { status with
              quality_ok := true
              feedback := "Hold still... " ++ (get_current_stage s).instruction }
            let s :=
              match f.face_encodings with
              | [] => s
              | enc :: _ =>
                let s := add_encoding s enc
                let s := bump_current_stage s
                if s.frames_per_pose ≤ (get_current_stage s).frames_captured then
                  advance_stage s
                else s
            let ic2 := is_complete s
            let s := ic2.1
            let status := { status with
              progress_captured := totalCaptured s
              progress_needed := totalNeeded s
              is_complete := ic2.2 }
            if ic2.2 then (s, { status with feedback := "Face capture complete!" })
            else (s, status)

/-! ## Aggregation (`get_aggregated_encoding`) -/

/-- The serialized value `get_aggregated_encoding` returns: the empty byte
string, or the pickled averaged vector. -/
inductive AggBytes where
  | emptyBytes : AggBytes
  | pickled : List ℚ → AggBytes
deriving DecidableEq

/-- `np.mean(encodings, axis=0)`: componentwise mean over a list of vectors
(length taken from the first vector, as numpy requires equal lengths). -/
def npMean (encs : List (List ℚ)) : List ℚ :=
  match encs with
  | [] => []
  | e :: _ =>
    (List.range e.length).map fun i =>
      ((encs.map fun v => v.getD i 0).sum) / encs.length

/-- `get_aggregated_encoding`: the method has no failure path — it returns
normally on every state (`Except` models the possibility of a Python method
raising; this one never does). -/
def get_aggregated_encoding (s : GuidedFaceCapture) : Except String AggBytes :=
  if s.encodings.isEmpty then .ok .emptyBytes
  else .ok (.pickled (npMean s.encodings))

/-! ## Claim C1: aggregation before completion -/

/-- C1, counterexample: a freshly constructed capture session has
`completed = false`, yet `get_aggregated_encoding` returns the empty byte
string normally — no error is signalled for the missing precondition. -/
theorem C1_counterexample :
    (GuidedFaceCapture.init 3).completed = false ∧
    get_aggregated_encoding (GuidedFaceCapture.init 3) = .ok .emptyBytes :=
  ⟨rfl, rfl⟩

/-- C1 (amended): `get_aggregated_encoding` never checks `completed` and
never signals an error: on every state with `completed = false` it returns
normally — the empty byte string exactly when no encodings are stored, and
otherwise the pickled componentwise mean of whatever (possibly partial)
encodings exist. -/
theorem C1_no_completion_check (s : GuidedFaceCapture) (_h : s.completed = false) :
    (get_aggregated_encoding s = .ok .emptyBytes ↔ s.encodings = []) ∧
    (s.encodings ≠ [] → get_aggregated_encoding s = .ok (.pickled (npMean s.encodings))) := by
  unfold get_aggregated_encoding
  by_cases he : s.encodings.isEmpty
  · rw [if_pos he]
    rw [List.isEmpty_iff] at he
    simp [he]
  · rw [if_neg he]
    rw [List.isEmpty_iff] at he
    simp [he]

/-- C1, witness: the amended behaviour at the fresh session. -/
theorem C1_witness :
    (get_aggregated_encoding (GuidedFaceCapture.init 3) = .ok .emptyBytes ↔
      (GuidedFaceCapture.init 3).encodings = []) ∧
    ((GuidedFaceCapture.init 3).encodings ≠ [] →
      get_aggregated_encoding (GuidedFaceCapture.init 3) =
        .ok (.pickled (npMean (GuidedFaceCapture.init 3).encodings))) :=
  C1_no_completion_check (GuidedFaceCapture.init 3) rfl

/-! ## Claim C5: pose thresholds -/

/-- C5: `validate_pose` decides each stage exactly by the specified
threshold on the derived ratio (`yaw_ratio`, `pitch_ratio`, `smile_ratio` of
the source are `yawRatioOf`, `pitchRatioOf`, `smileRatioOf`), uniformly in
the square-root primitive used for the vector norms: center/neutral valid
iff `|yaw| ≤ 0.20`, left iff `yaw ≤ -0.03`, right iff `yaw ≥ 0.03`, up iff
`pitch ≤ 0.45`, down iff `pitch ≥ 0.50`, smile iff the mouth-to-jaw width
quotient is `≥ 0.38`. -/
theorem C5_validate_pose_thresholds (sq : ℚ → ℚ) (lm : Landmarks) :
    ((validate_pose sq lm "center").is_valid = true ↔ |yawRatioOf sq lm| ≤ 20/100) ∧
    ((validate_pose sq lm "neutral").is_valid = true ↔ |yawRatioOf sq lm| ≤ 20/100) ∧
    ((validate_pose sq lm "left").is_valid = true ↔ yawRatioOf sq lm ≤ -(3/100)) ∧
    ((validate_pose sq lm "right").is_valid = true ↔ 3/100 ≤ yawRatioOf sq lm) ∧
    ((validate_pose sq lm "up").is_valid = true ↔ pitchRatioOf lm ≤ 45/100) ∧
    ((validate_pose sq lm "down").is_valid = true ↔ 50/100 ≤ pitchRatioOf lm) ∧
    ((validate_pose sq lm "smile").is_valid = true ↔ 38/100 ≤ smileRatioOf sq lm) := by
  refine ⟨?_, ?_, ?_, ?_, ?_, ?_, ?_⟩ <;>
    · simp only [validate_pose]
      norm_num
      split_ifs <;> simp_all

/-! ## Claim C2: the per-frame transition of `process_frame` -/

/-- The ordered gate evaluation described by the spec: the feedback message
of the first failing gate, in the order lighting → exactly-one-face →
position → blur → pose, or `none` when every gate passes.  Pose validation
runs only when landmark extraction returned at least one landmark set, as in
the source. -/
def gate_feedback (sq : ℚ → ℚ) (s : GuidedFaceCapture) (f : Frame) : Option String :=
  let lighting := analyze_lighting f
  if lighting.is_adequate = false then some lighting.message
  else if f.faces.length = 0 then some "No face detected - please face the camera"
  else if 1 < f.faces.length then some "Multiple faces detected - only one person please"
  else
    let loc := f.faces.getD 0 ⟨0, 0, 0, 0⟩
    let face_box : Box := ⟨loc.left, loc.top, loc.right - loc.left, loc.bottom - loc.top⟩
    let position := validate_face_position face_box f.width f.height
    if position.is_valid = false then some position.message
    else
      let blur := check_blur f
      if blur.is_sharp = false then some blur.message
      else
        match f.landmarks_list with
        | [] => none
        | lm :: _ =>
          let pose_check := validate_pose sq lm (get_current_stage s).name
          if pose_check.is_valid = false then some pose_check.message else none

/-- The `frames_captured` counter of stage `i`. -/
def stage_count (s : GuidedFaceCapture) (i : ℕ) : ℕ :=
  (s.stages.getD i defaultStage).frames_captured

/-- The claimed per-call contract of `process_frame` on a genuinely
incomplete session: a gate failure leaves the state unchanged and surfaces
that gate's message as feedback; a fully passing frame whose embedding
extraction failed also leaves the state unchanged; a fully passing frame
with an extracted embedding stores it, increments exactly the current
stage's counter, and advances to the next stage index — or to `completed`
when at the last index — exactly when the counter reaches
`frames_per_pose`. -/
def C2_post (sq : ℚ → ℚ) (s : GuidedFaceCapture) (f : Frame) : Prop :=
  let r := process_frame sq s f
  let i := s.current_stage_index
  (∀ msg, gate_feedback sq s f = some msg → r.1 = s ∧ r.2.feedback = msg) ∧
  (gate_feedback sq s f = none → f.face_encodings = [] → r.1 = s) ∧
  (∀ enc rest, gate_feedback sq s f = none → f.face_encodings = enc :: rest →
    r.1.encodings = s.encodings ++ [enc] ∧
    stage_count r.1 i = stage_count s i + 1 ∧
    (∀ j, j ≠ i → stage_count r.1 j = stage_count s j) ∧
    (stage_count s i + 1 < s.frames_per_pose →
      r.1.current_stage_index = i ∧ r.1.completed = false) ∧
    (s.frames_per_pose ≤ stage_count s i + 1 →
      (i + 1 < s.stages.length → r.1.current_stage_index = i + 1) ∧
      (i + 1 = s.stages.length → r.1.completed = true ∧ r.1.current_stage_index = i)))

/-- A session reported incomplete is returned unchanged by `is_complete`. -/
theorem is_complete_of_false (s : GuidedFaceCapture) (h : (is_complete s).2 = false) :
    is_complete s = (s, false) := by
  unfold is_complete at h ⊢
  split_ifs at h ⊢
  simp_all

/-- `is_complete` can only flip the `completed` flag. -/
theorem is_complete_fst_fields (s : GuidedFaceCapture) :
    (is_complete s).1.current_stage_index = s.current_stage_index ∧
    (is_complete s).1.stages = s.stages ∧
    (is_complete s).1.encodings = s.encodings ∧
    (is_complete s).1.frames_per_pose = s.frames_per_pose := by
  unfold is_complete
  split_ifs <;> exact ⟨rfl, rfl, rfl, rfl⟩

theorem stage_count_bump_self (s : GuidedFaceCapture)
    (h : s.current_stage_index < s.stages.length) :
    stage_count (bump_current_stage s) s.current_stage_index =
      stage_count s s.current_stage_index + 1 := by
  unfold stage_count bump_current_stage effective_stage_index
  rw [if_pos h]
  dsimp only
  rw [List.getD_eq_getElem?_getD, List.getD_eq_getElem?_getD, List.getElem?_modify_eq,
    List.getElem?_eq_getElem h]
  rfl

theorem stage_count_bump_ne (s : GuidedFaceCapture) (j : ℕ)
    (h : s.current_stage_index < s.stages.length) (hj : j ≠ s.current_stage_index) :
    stage_count (bump_current_stage s) j = stage_count s j := by
  unfold stage_count bump_current_stage effective_stage_index
  rw [if_pos h]
  dsimp only
  rw [List.getD_eq_getElem?_getD, List.getD_eq_getElem?_getD,
    List.getElem?_modify_ne _ _ (Ne.symm hj)]

/-- C2 (amended): the per-frame transition contract, for every incomplete
session, every frame, and every square-root primitive. -/
theorem C2_transition (sq : ℚ → ℚ) (s : GuidedFaceCapture) (f : Frame)
    (hic : (is_complete s).2 = false) (hidx : s.current_stage_index < s.stages.length) :
    C2_post sq s f := by
  have hic' : is_complete s = (s, false) := is_complete_of_false s hic
  have hcom : s.completed = false := by
    by_contra hc
    rw [Bool.not_eq_false] at hc
    unfold is_complete at hic
    rw [if_pos hc] at hic
    simp at hic
  have haccept : ∀ enc : List ℚ,
      ((is_complete (if (bump_current_stage (add_encoding s enc)).frames_per_pose ≤
            (get_current_stage (bump_current_stage (add_encoding s enc))).frames_captured then
            advance_stage (bump_current_stage (add_encoding s enc))
          else bump_current_stage (add_encoding s enc))).1.encodings =
        s.encodings ++ [enc] ∧
      stage_count (is_complete (if (bump_current_stage (add_encoding s enc)).frames_per_pose ≤
            (get_current_stage (bump_current_stage (add_encoding s enc))).frames_captured then
            advance_stage (bump_current_stage (add_encoding s enc))
          else bump_current_stage (add_encoding s enc))).1 s.current_stage_index =
        stage_count s s.current_stage_index + 1 ∧
      (∀ j, j ≠ s.current_stage_index →
        stage_count (is_complete (if (bump_current_stage (add_encoding s enc)).frames_per_pose ≤
            (get_current_stage (bump_current_stage (add_encoding s enc))).frames_captured then
            advance_stage (bump_current_stage (add_encoding s enc))
          else bump_current_stage (add_encoding s enc))).1 j = stage_count s j) ∧
      (stage_count s s.current_stage_index + 1 < s.frames_per_pose →
        (is_complete (if (bump_current_stage (add_encoding s enc)).frames_per_pose ≤
            (get_current_stage (bump_current_stage (add_encoding s enc))).frames_captured then
            advance_stage (bump_current_stage (add_encoding s enc))
          else bump_current_stage (add_encoding s enc))).1.current_stage_index =
          s.current_stage_index ∧
        (is_complete (if (bump_current_stage (add_encoding s enc)).frames_per_pose ≤
            (get_current_stage (bump_current_stage (add_encoding s enc))).frames_captured then
            advance_stage (bump_current_stage (add_encoding s enc))
          else bump_current_stage (add_encoding s enc))).1.completed = false) ∧
      (s.frames_per_pose ≤ stage_count s s.current_stage_index + 1 →
        (s.current_stage_index + 1 < s.stages.length →
          (is_complete (if (bump_current_stage (add_encoding s enc)).frames_per_pose ≤
              (get_current_stage (bump_current_stage (add_encoding s enc))).frames_captured then
              advance_stage (bump_current_stage (add_encoding s enc))
            else bump_current_stage (add_encoding s enc))).1.current_stage_index =
            s.current_stage_index + 1) ∧
        (s.current_stage_index + 1 = s.stages.length →
          (is_complete (if (bump_current_stage (add_encoding s enc)).frames_per_pose ≤
              (get_current_stage (bump_current_stage (add_encoding s enc))).frames_captured then
              advance_stage (bump_current_stage (add_encoding s enc))
            else bump_current_stage (add_encoding s enc))).1.completed = true ∧
          (is_complete (if (bump_current_stage (add_encoding s enc)).frames_per_pose ≤
              (get_current_stage (bump_current_stage (add_encoding s enc))).frames_captured then
              advance_stage (bump_current_stage (add_encoding s enc))
            else bump_current_stage (add_encoding s enc))).1.current_stage_index =
            s.current_stage_index))) := by
    intro enc
    set s1 := add_encoding s enc with hs1
    set s2 := bump_current_stage s1 with hs2
    have hs2completed : s2.completed = false := hcom
    have hlen2 : s2.stages.length = s.stages.length := by
      rw [hs2]
      unfold bump_current_stage
      dsimp only
      rw [List.length_modify]
      rfl
    have hc : s2.current_stage_index < s2.stages.length := by
      rw [hlen2]
      exact hidx
    have hcount_self : stage_count s2 s.current_stage_index =
        stage_count s s.current_stage_index + 1 :=
      stage_count_bump_self s1 hidx
    have hcount_ne : ∀ j, j ≠ s.current_stage_index →
        stage_count s2 j = stage_count s j := fun j hj =>
      stage_count_bump_ne s1 j hidx hj
    have hcur2 : (get_current_stage s2).frames_captured =
        stage_count s s.current_stage_index + 1 := by
      unfold get_current_stage effective_stage_index
      rw [if_pos hc]
      exact hcount_self
    rw [hcur2, show s2.frames_per_pose = s.frames_per_pose from rfl]
    by_cases hreach : s.frames_per_pose ≤ stage_count s s.current_stage_index + 1
    · rw [if_pos hreach]
      by_cases hlast : s.current_stage_index < s.stages.length - 1
      · have hadv : advance_stage s2 =
            { s2 with current_stage_index := s2.current_stage_index + 1 } := by
          unfold advance_stage
          rw [if_pos (by rw [hlen2]; exact hlast)]
        rw [hadv]
        obtain ⟨hf1, hf2, hf3, _hf4⟩ :=
          is_complete_fst_fields { s2 with current_stage_index := s2.current_stage_index + 1 }
        refine ⟨by rw [hf3]; rfl, ?_, ?_, ?_, ?_⟩
        · unfold stage_count
          rw [hf2]
          exact hcount_self
        · intro j hj
          unfold stage_count
          rw [hf2]
          exact hcount_ne j hj
        · intro hlt
          exact absurd hlt (by omega)
        · intro _
          refine ⟨fun _ => by rw [hf1]; rfl, fun heq => absurd heq (by omega)⟩
      · have hadv : advance_stage s2 = { s2 with completed := true } := by
          unfold advance_stage
          rw [if_neg (by rw [hlen2]; exact hlast)]
        rw [hadv]
        have hic3 : is_complete { s2 with completed := true } =
            ({ s2 with completed := true }, true) := by
          unfold is_complete
          rw [if_pos rfl]
        rw [hic3]
        refine ⟨rfl, hcount_self, hcount_ne, fun hlt => absurd hlt (by omega), fun _ => ?_⟩
        exact ⟨fun hlt2 => absurd hlt2 (by omega), fun _ => ⟨rfl, rfl⟩⟩
    · rw [if_neg hreach]
      have hall : ¬ (s2.stages.all fun st =>
          decide (s2.frames_per_pose ≤ st.frames_captured)) = true := by
        intro hall
        rw [List.all_eq_true] at hall
        have hmem : s2.stages.getD s2.current_stage_index defaultStage ∈ s2.stages := by
          rw [List.getD_eq_getElem?_getD, List.getElem?_eq_getElem hc]
          exact List.getElem_mem hc
        have h2 := of_decide_eq_true (hall _ hmem)
        exact hreach (hcount_self ▸ h2)
      have hic2 : is_complete s2 = (s2, false) := by
        unfold is_complete
        rw [if_neg (show ¬(s2.completed = true) by simp [hs2completed]), if_neg hall]
      rw [hic2]
      exact ⟨rfl, hcount_self, hcount_ne, fun _ => ⟨rfl, hs2completed⟩,
        fun hge => absurd hge hreach⟩
  unfold C2_post process_frame gate_feedback
  rw [hic']
  dsimp only
  rw [if_neg (show ¬(s.completed = true) by simp [hcom])]
  set lighting := analyze_lighting f with hlighting
  set loc := f.faces.getD 0 ⟨0, 0, 0, 0⟩ with hloc
  set position := validate_face_position
    ⟨loc.left, loc.top, loc.right - loc.left, loc.bottom - loc.top⟩ f.width f.height
    with hposition
  set blur := check_blur f with hblurdef
  by_cases hlight : lighting.is_adequate = false
  · rw [if_pos hlight, if_pos hlight]
    exact ⟨fun msg hmsg => ⟨rfl, by injection hmsg⟩,
      fun habs _ => absurd habs (by simp), fun enc rest habs _ => absurd habs (by simp)⟩
  · rw [if_neg hlight, if_neg hlight]
    by_cases hface0 : f.faces.length = 0
    · rw [if_pos hface0, if_pos hface0]
      exact ⟨fun msg hmsg => ⟨rfl, by injection hmsg⟩,
        fun habs _ => absurd habs (by simp), fun enc rest habs _ => absurd habs (by simp)⟩
    · rw [if_neg hface0, if_neg hface0]
      by_cases hface1 : 1 < f.faces.length
      · rw [if_pos hface1, if_pos hface1]
        exact ⟨fun msg hmsg => ⟨rfl, by injection hmsg⟩,
          fun habs _ => absurd habs (by simp), fun enc rest habs _ => absurd habs (by simp)⟩
      · rw [if_neg hface1, if_neg hface1]
        by_cases hposv : position.is_valid = false
        · rw [if_pos hposv, if_pos hposv]
          exact ⟨fun msg hmsg => ⟨rfl, by injection hmsg⟩,
            fun habs _ => absurd habs (by simp), fun enc rest habs _ => absurd habs (by simp)⟩
        · rw [if_neg hposv, if_neg hposv]
          by_cases hblurv : blur.is_sharp = false
          · rw [if_pos hblurv, if_pos hblurv]
            exact ⟨fun msg hmsg => ⟨rfl, by injection hmsg⟩,
              fun habs _ => absurd habs (by simp), fun enc rest habs _ => absurd habs (by simp)⟩
          · rw [if_neg hblurv, if_neg hblurv]
            cases hlm : f.landmarks_list with
            | nil =>
              dsimp only
              cases hencs : f.face_encodings with
              | nil =>
                dsimp only
                rw [hic']
                dsimp only
                refine ⟨fun msg hmsg => absurd hmsg (by simp), fun _ _ => ?_,
                  fun enc rest _ habs => absurd habs (by simp)⟩
                rw [apply_ite Prod.fst]
                dsimp only
                rw [ite_self]
              | cons enc rest =>
                have h := haccept enc
                dsimp only
                refine ⟨fun msg hmsg => absurd hmsg (by simp),
                  fun _ habs => absurd habs (by simp), fun enc' rest' _ heq => ?_⟩
                have henc' : enc = enc' := by injection heq with h1 _
                subst henc'
                rw [apply_ite Prod.fst]
                dsimp only
                rw [ite_self]
                exact h
            | cons lm lms =>
              dsimp only
              by_cases hpose : (validate_pose sq lm (get_current_stage s).name).is_valid = false
              · rw [if_pos hpose]
                dsimp only
                exact ⟨fun msg hmsg => ⟨rfl, by injection hmsg⟩,
                  fun habs _ => absurd habs (by simp),
                  fun enc rest habs _ => absurd habs (by simp)⟩
              · rw [if_neg hpose]
                dsimp only
                cases hencs : f.face_encodings with
                | nil =>
                  dsimp only
                  rw [hic']
                  dsimp only
                  refine ⟨fun msg hmsg => absurd hmsg (by simp), fun _ _ => ?_,
                    fun enc rest _ habs => absurd habs (by simp)⟩
                  rw [apply_ite Prod.fst]
                  dsimp only
                  rw [ite_self]
                | cons enc rest =>
                  have h := haccept enc
                  dsimp only
                  refine ⟨fun msg hmsg => absurd hmsg (by simp),
                    fun _ habs => absurd habs (by simp), fun enc' rest' _ heq => ?_⟩
                  have henc' : enc = enc' := by injection heq with h1 _
                  subst henc'
                  rw [apply_ite Prod.fst]
                  dsimp only
                  rw [ite_self]
                  exact h

/-- A degenerate square-root stand-in used for concrete evaluations; the
inputs below are chosen so that no computed ratio depends on its value. -/
def sq0 : ℚ → ℚ := fun _ => 0

/-- A landmark set whose nose tip sits exactly on the eye-center midline, so
the center-pose check passes for every square-root primitive. -/
def lmCenter : Landmarks :=
  { chin := [(0, 3)]
    nose_bridge := [(0, 0)]
    nose_tip := [(0, 1)]
    left_eye := [(-2, 0)]
    right_eye := [(2, 0)]
    top_lip := [(0, 2)]
    bottom_lip := [(0, 2)] }

/-- A frame that passes every quality gate and the center-pose check, but on
which embedding extraction returned no encoding. -/
def framePass : Frame :=
  { width := 640
    height := 480
    brightness := 100
    blur_variance := 10
    faces := [⟨100, 400, 340, 200⟩]
    landmarks_list := [lmCenter]
    face_encodings := [] }

/-- C2, counterexample: on a fresh session, `framePass` passes lighting,
exactly-one-face, position, blur, and the Pose Validator (first conjunct),
yet `process_frame` stores no embedding and increments nothing — the state
is returned entirely unchanged (second conjunct), because
`face_recognition.face_encodings` returned an empty list.  The claimed
"if and only if" therefore fails on this input. -/
theorem C2_counterexample :
    gate_feedback sq0 (GuidedFaceCapture.init 3) framePass = none ∧
    (process_frame sq0 (GuidedFaceCapture.init 3) framePass).1 = GuidedFaceCapture.init 3 := by
  have hstage : get_current_stage (GuidedFaceCapture.init 3) =
      ⟨"center", "Look straight at the camera", 0⟩ := by
    rfl
  have hpose : validate_pose sq0 lmCenter "center" = ⟨true, "Good center pose"⟩ := by
    unfold validate_pose
    rw [if_pos (Or.inl rfl)]
    rw [if_neg]
    norm_num [yawRatioOf, nose_x, face_center_x, eye_dist, norm2, left_eye_center,
      right_eye_center, meanPt, lmCenter, sq0]
  have hic0 : is_complete (GuidedFaceCapture.init 3) = (GuidedFaceCapture.init 3, false) := by
    unfold is_complete
    rw [if_neg (by simp [GuidedFaceCapture.init]), if_neg (by decide)]
  have hpf : (match framePass.landmarks_list with
      | [] => (none : Option String)
      | lm :: _ =>
        if (validate_pose sq0 lm
            (get_current_stage (GuidedFaceCapture.init 3)).name).is_valid = false then
          some (validate_pose sq0 lm
            (get_current_stage (GuidedFaceCapture.init 3)).name).message
        else none) = none := by
    show (if (validate_pose sq0 lmCenter
          (get_current_stage (GuidedFaceCapture.init 3)).name).is_valid = false then
        some (validate_pose sq0 lmCenter
          (get_current_stage (GuidedFaceCapture.init 3)).name).message
      else none) = none
    rw [hstage]
    dsimp only
    rw [hpose]
    rfl
  constructor
  · unfold gate_feedback
    rw [if_neg (by norm_num [analyze_lighting, framePass, MIN_BRIGHTNESS, MAX_BRIGHTNESS])]
    rw [if_neg (by norm_num [framePass])]
    rw [if_neg (by norm_num [framePass])]
    rw [if_neg (by norm_num [validate_face_position, framePass, MIN_FACE_FRAC])]
    rw [if_neg (by norm_num [check_blur, framePass, BLUR_THRESHOLD])]
    exact hpf
  · unfold process_frame
    rw [hic0]
    dsimp only
    rw [if_neg (by simp [GuidedFaceCapture.init])]
    rw [if_neg (by norm_num [analyze_lighting, framePass, MIN_BRIGHTNESS, MAX_BRIGHTNESS])]
    rw [if_neg (by norm_num [framePass])]
    rw [if_neg (by norm_num [framePass])]
    rw [if_neg (by norm_num [validate_face_position, framePass, MIN_FACE_FRAC])]
    rw [if_neg (by norm_num [check_blur, framePass, BLUR_THRESHOLD])]
    rw [hpf]
    dsimp only
    simp only [show framePass.face_encodings = [] from rfl]
    rw [hic0]
    dsimp only
    rw [apply_ite Prod.fst]
    dsimp only
    rw [ite_self]

/-- A frame that fails the first gate (too dark), used to witness the
amended C2 contract at a concrete input. -/
def frameDark : Frame :=
  { width := 640
    height := 480
    brightness := 10
    blur_variance := 10
    faces := []
    landmarks_list := []
    face_encodings := [] }

/-- C2, witness: the amended per-frame contract at the fresh session and a
concrete frame. -/
theorem C2_witness : C2_post sq0 (GuidedFaceCapture.init 3) frameDark :=
  C2_transition sq0 (GuidedFaceCapture.init 3) frameDark (by decide) (by decide)

/-! ## Claim C4: invariants across operation sequences -/

/-- The public operations of the capture state machine. -/
inductive CaptureOp where
  | processFrame (sq : ℚ → ℚ) (f : Frame)
  | advanceStage
  | isComplete
  | reset

/-- One public operation applied to a session state. -/
def applyOp (s : GuidedFaceCapture) : CaptureOp → GuidedFaceCapture
  | .processFrame sq f => (process_frame sq s f).1
  | .advanceStage => advance_stage s
  | .isComplete => (is_complete s).1
  | .reset => reset s

/-- States reachable from a fresh session by any operation sequence. -/
inductive ReachesAny : GuidedFaceCapture → Prop where
  | init (fpp : ℕ) : ReachesAny (GuidedFaceCapture.init fpp)
  | step (s : GuidedFaceCapture) (op : CaptureOp) :
      ReachesAny s → ReachesAny (applyOp s op)

/-- States reachable without ever calling `advance_stage` directly
(`process_frame` still invokes it internally). -/
inductive ReachesSafe : GuidedFaceCapture → Prop where
  | init (fpp : ℕ) : ReachesSafe (GuidedFaceCapture.init fpp)
  | step (s : GuidedFaceCapture) (op : CaptureOp) : op ≠ CaptureOp.advanceStage →
      ReachesSafe s → ReachesSafe (applyOp s op)

theorem is_complete_fst_idem (s : GuidedFaceCapture) :
    (is_complete ((is_complete s).1)).1 = (is_complete s).1 := by
  unfold is_complete
  by_cases h1 : s.completed = true
  · rw [if_pos h1]
    dsimp only
    rw [if_pos h1]
  · rw [if_neg h1]
    by_cases h2 : (s.stages.all fun st =>
        decide (s.frames_per_pose ≤ st.frames_captured)) = true
    · rw [if_pos h2]
      dsimp only
      rw [if_pos (show ({ s with completed := true } : GuidedFaceCapture).completed = true
        from rfl)]
    · rw [if_neg h2]
      dsimp only
      rw [if_neg h1, if_neg h2]

/-- The state `process_frame` returns is the `is_complete`-normalised input,
or — when the session is not completed — the input with one encoding added
and the current stage bumped, optionally advanced when the bumped counter
reached `frames_per_pose`, then `is_complete`-normalised. -/
theorem process_frame_fst_shape (sq : ℚ → ℚ) (s : GuidedFaceCapture) (f : Frame) :
    (process_frame sq s f).1 = (is_complete s).1 ∨
    ((is_complete s).1.completed = false ∧ ∃ enc : List ℚ,
      ((process_frame sq s f).1 =
        (is_complete (bump_current_stage (add_encoding (is_complete s).1 enc))).1) ∨
      ((bump_current_stage (add_encoding (is_complete s).1 enc)).frames_per_pose ≤
          (get_current_stage
            (bump_current_stage (add_encoding (is_complete s).1 enc))).frames_captured ∧
        (process_frame sq s f).1 =
          (is_complete
            (advance_stage (bump_current_stage (add_encoding (is_complete s).1 enc)))).1)) := by
  unfold process_frame
  dsimp only
  set s1 := (is_complete s).1 with hs1
  by_cases hcom : s1.completed = true
  · rw [if_pos hcom]
    exact Or.inl rfl
  · rw [if_neg hcom]
    rw [Bool.not_eq_true] at hcom
    set lighting := analyze_lighting f with hlighting
    set loc := f.faces.getD 0 ⟨0, 0, 0, 0⟩ with hloc
    set position := validate_face_position
      ⟨loc.left, loc.top, loc.right - loc.left, loc.bottom - loc.top⟩ f.width f.height
      with hposition
    set blur := check_blur f with hblurdef
    by_cases hlight : lighting.is_adequate = false
    · rw [if_pos hlight]
      exact Or.inl rfl
    · rw [if_neg hlight]
      by_cases hface0 : f.faces.length = 0
      · rw [if_pos hface0]
        exact Or.inl rfl
      · rw [if_neg hface0]
        by_cases hface1 : 1 < f.faces.length
        · rw [if_pos hface1]
          exact Or.inl rfl
        · rw [if_neg hface1]
          by_cases hposv : position.is_valid = false
          · rw [if_pos hposv]
            exact Or.inl rfl
          · rw [if_neg hposv]
            by_cases hblurv : blur.is_sharp = false
            · rw [if_pos hblurv]
              exact Or.inl rfl
            · rw [if_neg hblurv]
              cases hlm : f.landmarks_list with
              | nil =>
                dsimp only
                cases hencs : f.face_encodings with
                | nil =>
                  dsimp only
                  rw [apply_ite Prod.fst]
                  dsimp only
                  rw [ite_self]
                  exact Or.inl (by rw [hs1]; exact is_complete_fst_idem s)
                | cons enc rest =>
                  dsimp only
                  rw [apply_ite Prod.fst]
                  dsimp only
                  rw [ite_self]
                  right
                  refine ⟨hcom, enc, ?_⟩
                  by_cases hcond : (bump_current_stage (add_encoding s1 enc)).frames_per_pose ≤
                      (get_current_stage (bump_current_stage (add_encoding s1 enc))).frames_captured
                  · rw [if_pos hcond]
                    exact Or.inr ⟨hcond, rfl⟩
                  · rw [if_neg hcond]
                    exact Or.inl rfl
              | cons lm lms =>
                dsimp only
                by_cases hpose : (validate_pose sq lm (get_current_stage s1).name).is_valid = false
                · rw [if_pos hpose]
                  dsimp only
                  exact Or.inl rfl
                · rw [if_neg hpose]
                  dsimp only
                  cases hencs : f.face_encodings with
                  | nil =>
                    dsimp only
                    rw [apply_ite Prod.fst]
                    dsimp only
                    rw [ite_self]
                    exact Or.inl (by rw [hs1]; exact is_complete_fst_idem s)
                  | cons enc rest =>
                    dsimp only
                    rw [apply_ite Prod.fst]
                    dsimp only
                    rw [ite_self]
                    right
                    refine ⟨hcom, enc, ?_⟩
                    by_cases hcond : (bump_current_stage (add_encoding s1 enc)).frames_per_pose ≤
                        (get_current_stage
                          (bump_current_stage (add_encoding s1 enc))).frames_captured
                    · rw [if_pos hcond]
                      exact Or.inr ⟨hcond, rfl⟩
                    · rw [if_neg hcond]
                      exact Or.inl rfl

/-- `is_complete` either returns the state unchanged or flips `completed`
after a successful full-counters check. -/
theorem is_complete_fst_cases (s : GuidedFaceCapture) :
    (is_complete s).1 = s ∨
    ((is_complete s).1 = { s with completed := true } ∧
      (s.stages.all fun st => decide (s.frames_per_pose ≤ st.frames_captured)) = true) := by
  unfold is_complete
  by_cases h1 : s.completed = true
  · rw [if_pos h1]
    exact Or.inl rfl
  · rw [if_neg h1]
    by_cases h2 : (s.stages.all fun st =>
        decide (s.frames_per_pose ≤ st.frames_captured)) = true
    · rw [if_pos h2]
      exact Or.inr ⟨rfl, h2⟩
    · rw [if_neg h2]
      exact Or.inl rfl

/-- `current_stage_index` stays within bounds. -/
def Inv1 (s : GuidedFaceCapture) : Prop :=
  s.current_stage_index < s.stages.length

/-- Every stage strictly before the current one has reached the target. -/
def PrefFull (s : GuidedFaceCapture) : Prop :=
  ∀ j, j < s.current_stage_index → s.frames_per_pose ≤ stage_count s j

/-- Once `completed`, every stage has reached the target. -/
def CompFull (s : GuidedFaceCapture) : Prop :=
  s.completed = true → ∀ j, j < s.stages.length → s.frames_per_pose ≤ stage_count s j

/-- The inductive invariant for advance-free operation sequences. -/
def SafeInv (s : GuidedFaceCapture) : Prop :=
  Inv1 s ∧ PrefFull s ∧ CompFull s

theorem all_check_counts (s : GuidedFaceCapture)
    (h : (s.stages.all fun st => decide (s.frames_per_pose ≤ st.frames_captured)) = true) :
    ∀ j, j < s.stages.length → s.frames_per_pose ≤ stage_count s j := by
  intro j hj
  rw [List.all_eq_true] at h
  have hmem : s.stages.getD j defaultStage ∈ s.stages := by
    rw [List.getD_eq_getElem?_getD, List.getElem?_eq_getElem hj]
    exact List.getElem_mem hj
  exact of_decide_eq_true (h _ hmem)

theorem safe_inv_is_complete (s : GuidedFaceCapture) (h : SafeInv s) :
    SafeInv (is_complete s).1 := by
  rcases is_complete_fst_cases s with heq | ⟨heq, hall⟩
  · rw [heq]
    exact h
  · rw [heq]
    exact ⟨h.1, h.2.1, fun _ => all_check_counts s hall⟩

theorem inv1_is_complete (s : GuidedFaceCapture) (h : Inv1 s) : Inv1 (is_complete s).1 := by
  rcases is_complete_fst_cases s with heq | ⟨heq, _⟩ <;> rw [heq] <;> exact h

theorem bump_add_length (s : GuidedFaceCapture) (enc : List ℚ) :
    (bump_current_stage (add_encoding s enc)).stages.length = s.stages.length := by
  unfold bump_current_stage
  dsimp only
  rw [List.length_modify]
  rfl

theorem inv1_bump_add (s : GuidedFaceCapture) (enc : List ℚ) (h : Inv1 s) :
    Inv1 (bump_current_stage (add_encoding s enc)) := by
  show (bump_current_stage (add_encoding s enc)).current_stage_index <
    (bump_current_stage (add_encoding s enc)).stages.length
  rw [bump_add_length]
  exact h

theorem safe_inv_bump_add (s : GuidedFaceCapture) (enc : List ℚ) (h : SafeInv s)
    (hcom : s.completed = false) : SafeInv (bump_current_stage (add_encoding s enc)) := by
  refine ⟨inv1_bump_add s enc h.1, ?_, ?_⟩
  · intro j hj
    have hj' : j < s.current_stage_index := hj
    have := stage_count_bump_ne (add_encoding s enc) j h.1 (Nat.ne_of_lt hj')
    show s.frames_per_pose ≤ stage_count (bump_current_stage (add_encoding s enc)) j
    rw [this]
    exact h.2.1 j hj'
  · intro hc
    have : s.completed = true := hc
    rw [hcom] at this
    exact absurd this (by simp)

theorem advance_stage_index_le (s : GuidedFaceCapture) :
    s.current_stage_index ≤ (advance_stage s).current_stage_index := by
  unfold advance_stage
  by_cases h : s.current_stage_index < s.stages.length - 1
  · rw [if_pos h]
    exact Nat.le_succ _
  · rw [if_neg h]

theorem inv1_advance (s : GuidedFaceCapture) (h : Inv1 s) : Inv1 (advance_stage s) := by
  unfold advance_stage
  by_cases hl : s.current_stage_index < s.stages.length - 1
  · rw [if_pos hl]
    show s.current_stage_index + 1 < s.stages.length
    omega
  · rw [if_neg hl]
    exact h

theorem safe_inv_advance (s2 : GuidedFaceCapture) (h : SafeInv s2)
    (hcom : s2.completed = false)
    (hcond : s2.frames_per_pose ≤ (get_current_stage s2).frames_captured) :
    SafeInv (advance_stage s2) := by
  have h1 : s2.current_stage_index < s2.stages.length := h.1
  have hcur : (get_current_stage s2).frames_captured =
      stage_count s2 s2.current_stage_index := by
    unfold get_current_stage effective_stage_index stage_count
    rw [if_pos h1]
  unfold advance_stage
  by_cases hlast : s2.current_stage_index < s2.stages.length - 1
  · rw [if_pos hlast]
    refine ⟨?_, ?_, ?_⟩
    · show s2.current_stage_index + 1 < s2.stages.length
      omega
    · intro j hj
      have hj' : j < s2.current_stage_index + 1 := hj
      rcases Nat.lt_succ_iff_lt_or_eq.mp hj' with hlt | heq
      · exact h.2.1 j hlt
      · rw [heq]
        show s2.frames_per_pose ≤ stage_count s2 s2.current_stage_index
        rw [← hcur]
        exact hcond
    · intro hc
      have : s2.completed = true := hc
      rw [hcom] at this
      exact absurd this (by simp)
  · rw [if_neg hlast]
    refine ⟨h.1, h.2.1, fun _ j hj => ?_⟩
    have hj' : j < s2.stages.length := hj
    rcases Nat.lt_or_ge j s2.current_stage_index with hlt | hge
    · exact h.2.1 j hlt
    · have hidx : j = s2.current_stage_index := by omega
      rw [hidx]
      show s2.frames_per_pose ≤ stage_count s2 s2.current_stage_index
      rw [← hcur]
      exact hcond

theorem safe_inv_reset (s : GuidedFaceCapture) (h : Inv1 s) : SafeInv (reset s) := by
  have h1 : s.current_stage_index < s.stages.length := h
  refine ⟨?_, ?_, ?_⟩
  · show (0 : ℕ) <
      (s.stages.map fun st => ({ st with frames_captured := 0 } : Stage)).length
    rw [List.length_map]
    omega
  · intro j hj
    exact absurd hj (by simp [reset])
  · intro hc
    exact absurd hc (by simp [reset])

theorem inv1_applyOp (s : GuidedFaceCapture) (op : CaptureOp) (h : Inv1 s) :
    Inv1 (applyOp s op) := by
  cases op with
  | processFrame sq f =>
    show Inv1 (process_frame sq s f).1
    rcases process_frame_fst_shape sq s f with heq | ⟨_, enc, heq | ⟨_, heq⟩⟩
    · rw [heq]
      exact inv1_is_complete s h
    · rw [heq]
      exact inv1_is_complete _ (inv1_bump_add _ enc (inv1_is_complete s h))
    · rw [heq]
      exact inv1_is_complete _ (inv1_advance _ (inv1_bump_add _ enc (inv1_is_complete s h)))
  | advanceStage => exact inv1_advance s h
  | isComplete => exact inv1_is_complete s h
  | reset => exact (safe_inv_reset s h).1

theorem safe_inv_applyOp (s : GuidedFaceCapture) (op : CaptureOp)
    (hop : op ≠ CaptureOp.advanceStage) (h : SafeInv s) : SafeInv (applyOp s op) := by
  cases op with
  | processFrame sq f =>
    show SafeInv (process_frame sq s f).1
    rcases process_frame_fst_shape sq s f with heq | ⟨hcomf, enc, heq | ⟨hcond, heq⟩⟩
    · rw [heq]
      exact safe_inv_is_complete s h
    · rw [heq]
      exact safe_inv_is_complete _
        (safe_inv_bump_add _ enc (safe_inv_is_complete s h) hcomf)
    · rw [heq]
      refine safe_inv_is_complete _ (safe_inv_advance _
        (safe_inv_bump_add _ enc (safe_inv_is_complete s h) hcomf) hcomf hcond)
  | advanceStage => exact absurd rfl hop
  | isComplete => exact safe_inv_is_complete s h
  | reset => exact safe_inv_reset s h.1

theorem safe_inv_init (fpp : ℕ) : SafeInv (GuidedFaceCapture.init fpp) := by
  refine ⟨?_, ?_, ?_⟩
  · show (0 : ℕ) < (STAGES.map _).length
    simp [STAGES]
  · intro j hj
    exact absurd hj (by simp [GuidedFaceCapture.init])
  · intro hc
    exact absurd hc (by simp [GuidedFaceCapture.init])

/-- Index monotonicity of every single operation: the stage index never
decreases except by a reset to 0. -/
theorem applyOp_index_mono (s : GuidedFaceCapture) (op : CaptureOp) :
    s.current_stage_index ≤ (applyOp s op).current_stage_index ∨
    (applyOp s op).current_stage_index = 0 := by
  cases op with
  | processFrame sq f =>
    left
    show s.current_stage_index ≤ (process_frame sq s f).1.current_stage_index
    have hb : ∀ enc : List ℚ,
        (bump_current_stage (add_encoding (is_complete s).1 enc)).current_stage_index =
          s.current_stage_index := by
      intro enc
      show (is_complete s).1.current_stage_index = s.current_stage_index
      exact (is_complete_fst_fields s).1
    rcases process_frame_fst_shape sq s f with heq | ⟨_, enc, heq | ⟨_, heq⟩⟩
    · rw [heq, (is_complete_fst_fields s).1]
    · rw [heq, (is_complete_fst_fields _).1, hb enc]
    · rw [heq, (is_complete_fst_fields _).1]
      have hle := advance_stage_index_le (bump_current_stage (add_encoding (is_complete s).1 enc))
      rw [hb enc] at hle
      exact hle
  | advanceStage => exact Or.inl (advance_stage_index_le s)
  | isComplete =>
    left
    show s.current_stage_index ≤ (is_complete s).1.current_stage_index
    rw [(is_complete_fst_fields s).1]
  | reset => exact Or.inr rfl

/-- C4, counterexample: seven direct `advance_stage` calls on a fresh session
(a sequence of public operations, witnessed by `ReachesAny`) set `completed`
to true while every stage still has `frames_captured = 0 < frames_per_pose`,
violating the claimed invariant `completed → every stage full`. -/
theorem C4_counterexample :
    ReachesAny (advance_stage (advance_stage (advance_stage (advance_stage (advance_stage
        (advance_stage (advance_stage (GuidedFaceCapture.init 3)))))))) ∧
    (advance_stage (advance_stage (advance_stage (advance_stage (advance_stage
        (advance_stage (advance_stage (GuidedFaceCapture.init 3)))))))).completed = true ∧
    ∃ st ∈ (advance_stage (advance_stage (advance_stage (advance_stage (advance_stage
        (advance_stage (advance_stage (GuidedFaceCapture.init 3)))))))).stages,
      st.frames_captured <
        (advance_stage (advance_stage (advance_stage (advance_stage (advance_stage
          (advance_stage (advance_stage (GuidedFaceCapture.init 3)))))))).frames_per_pose := by
  refine ⟨?_, by decide, by decide⟩
  exact ReachesAny.step _ .advanceStage (ReachesAny.step _ .advanceStage
    (ReachesAny.step _ .advanceStage (ReachesAny.step _ .advanceStage
      (ReachesAny.step _ .advanceStage (ReachesAny.step _ .advanceStage
        (ReachesAny.step _ .advanceStage (ReachesAny.init 3)))))))

/-- C4 (amended): across every operation sequence from a fresh session,
`current_stage_index` stays within `[0, len(stages) - 1]`; each single
operation either keeps or increases the index, or resets it to 0; and for
every sequence that never calls `advance_stage` directly (the method is
still run internally by `process_frame`), `completed = true` implies every
stage's counter has reached `frames_per_pose`.  (A direct `advance_stage`
call can set `completed` with unfilled stages — see the counterexample.) -/
theorem C4_invariants :
    (∀ s : GuidedFaceCapture, ReachesAny s →
      s.current_stage_index < s.stages.length) ∧
    (∀ (s : GuidedFaceCapture) (op : CaptureOp),
      s.current_stage_index ≤ (applyOp s op).current_stage_index ∨
      (applyOp s op).current_stage_index = 0) ∧
    (∀ s : GuidedFaceCapture, ReachesSafe s → s.completed = true →
      ∀ st ∈ s.stages, s.frames_per_pose ≤ st.frames_captured) := by
  refine ⟨?_, applyOp_index_mono, ?_⟩
  · intro s h
    induction h with
    | init fpp => exact (safe_inv_init fpp).1
    | step s' op _ ih => exact inv1_applyOp s' op ih
  · intro s h
    have hinv : SafeInv s := by
      induction h with
      | init fpp => exact safe_inv_init fpp
      | step s' op hop _ ih => exact safe_inv_applyOp s' op hop ih
    intro hc st hst
    obtain ⟨j, hj, rfl⟩ := List.mem_iff_getElem.mp hst
    have := hinv.2.2 hc j hj
    unfold stage_count at this
    rwa [List.getD_eq_getElem?_getD, List.getElem?_eq_getElem hj] at this

/-- C4, witness: the amended invariants instantiated at the fresh session
(bounds, monotonicity under one `advance_stage`, and the safe-sequence
completion property). -/
theorem C4_witness :
    ((GuidedFaceCapture.init 3).current_stage_index <
      (GuidedFaceCapture.init 3).stages.length) ∧
    ((GuidedFaceCapture.init 3).current_stage_index ≤
        (applyOp (GuidedFaceCapture.init 3) CaptureOp.advanceStage).current_stage_index ∨
      (applyOp (GuidedFaceCapture.init 3) CaptureOp.advanceStage).current_stage_index = 0) ∧
    ((GuidedFaceCapture.init 3).completed = true →
      ∀ st ∈ (GuidedFaceCapture.init 3).stages,
        (GuidedFaceCapture.init 3).frames_per_pose ≤ st.frames_captured) :=
  ⟨C4_invariants.1 (GuidedFaceCapture.init 3) (ReachesAny.init 3),
   C4_invariants.2.1 (GuidedFaceCapture.init 3) CaptureOp.advanceStage,
   C4_invariants.2.2 (GuidedFaceCapture.init 3) (ReachesSafe.init 3)⟩

/-- C5, witness: the threshold characterisation instantiated at a concrete
square root and landmark set. -/
theorem C5_witness :
    ((validate_pose sq0 lmCenter "center").is_valid = true ↔
      |yawRatioOf sq0 lmCenter| ≤ 20/100) ∧
    ((validate_pose sq0 lmCenter "neutral").is_valid = true ↔
      |yawRatioOf sq0 lmCenter| ≤ 20/100) ∧
    ((validate_pose sq0 lmCenter "left").is_valid = true ↔
      yawRatioOf sq0 lmCenter ≤ -(3/100)) ∧
    ((validate_pose sq0 lmCenter "right").is_valid = true ↔
      3/100 ≤ yawRatioOf sq0 lmCenter) ∧
    ((validate_pose sq0 lmCenter "up").is_valid = true ↔
      pitchRatioOf lmCenter ≤ 45/100) ∧
    ((validate_pose sq0 lmCenter "down").is_valid = true ↔
      50/100 ≤ pitchRatioOf lmCenter) ∧
    ((validate_pose sq0 lmCenter "smile").is_valid = true ↔
      38/100 ≤ smileRatioOf sq0 lmCenter) :=
  C5_validate_pose_thresholds sq0 lmCenter

/-- C7, witness: the amended smoothing characterisation at a concrete
window. -/
theorem C7_witness :
    smooth_detections [[⟨0, 0, 1, 1⟩]] = smoothSpec [[⟨0, 0, 1, 1⟩]] ∧
    avgBox [⟨0, 0, 1, 1⟩] = ⟨0, 0, 1, 1⟩ :=
  ⟨C7_smoothing_matches_spec.1 [[⟨0, 0, 1, 1⟩]], C7_smoothing_matches_spec.2 ⟨0, 0, 1, 1⟩⟩
